import Mathlib

/-!
Verification development for `scripts/ioc_deploy.py` (the `ioc-deploy` tool).

The script is shallowly embedded: Python strings are Lean `String`s, exit
codes are `Nat`, raised Python exceptions are the `Except.error` side of an
`Except PyErr` result, and every interaction with the outside world (git
clone subprocesses, the filesystem existence check, `mkdir`, `make`, the
interactive confirmation prompt) is mediated by an explicit environment
`Env` of oracles.  Each function additionally returns the list of side
effects it performed, in order, so that frame claims ("no clone happened")
are provable statements about the trace.
-/

namespace IocDeploy

/-- Model of Python `str.split(sep)` for a single-character separator, on
the character list of the string.  Mirrors CPython semantics for an explicit
separator: `"".split("-") = [""]`, `"a--b".split("-") = ["a", "", "b"]`. -/
def pySplitChars (sep : Char) : List Char → List (List Char)
  | [] => [[]]
  | c :: cs =>
    if c = sep then [] :: pySplitChars sep cs
    else
      match pySplitChars sep cs with
      | [] => [[c]]
      | w :: ws => (c :: w) :: ws

/-- Python `name.split("-")`, producing a list of strings. -/
def pySplitOnDash (s : String) : List String :=
  (pySplitChars '-' s.data).map String.mk

/-- Python `"-".join(parts)`. -/
def pyJoinDash (parts : List String) : String :=
  String.intercalate "-" parts

/-- Python `s.startswith(c)` for a one-character prefix (the only form the
script uses: prefixes `"R"`, `"v"`, `"y"`). -/
def pyStartsWith (s : String) (c : Char) : Bool :=
  s.data.head? == some c

/-- Model of `pathlib`'s `/` join followed by `str(...)`, for the cases the
script exercises: a non-empty left side joined with relative segments.
An absolute right side replaces the left, an empty right side is a no-op,
otherwise the parts are joined with a single `/`. -/
def pathJoin (a b : String) : String :=
  if b = "" then a
  else if pyStartsWith b '/' then b
  else if a = "" then b
  else if a.data.getLast? == some '/' then a ++ b
  else a ++ "/" ++ b

/-- Python `s.strip()`: remove leading and trailing whitespace. -/
def pyStrip (s : String) : String :=
  String.mk
    (((s.data.dropWhile Char.isWhitespace).reverse.dropWhile
      Char.isWhitespace).reverse)

/-- Python `s.lower()` (the script only ever lowercases short ASCII
responses). -/
def pyLower (s : String) : String :=
  String.mk (s.data.map Char.toLower)

/-- Syntactic model of `Path(p).resolve().parent`: drop the last
`/`-component.  (`resolve()` consults the filesystem, which is outside the
embedding; the deployment claims only ever inspect whether the mkdir side
effect happened, never the precise directory string.) -/
def parentDir (p : String) : String :=
  String.intercalate "/" (((pySplitChars '/' p.data).map String.mk).dropLast)

/-- Python exceptions the script can raise. -/
inductive PyErr where
  /-- `ValueError(msg)` -/
  | valueError (msg : String)
  /-- `RuntimeError(msg)` -/
  | runtimeError (msg : String)
  /-- `subprocess.CalledProcessError` carrying the nonzero exit code,
  raised by `subprocess.run(..., check=True)`. -/
  | calledProcessError (code : Nat)
  /-- `IndexError`, from an out-of-bounds `release[0]`. -/
  | indexError
  deriving DecidableEq, Repr

/-- Side effects performed against the outside world, in program order. -/
inductive Effect where
  /-- An invocation of `git clone` via `_clone(name, github_org, release,
  working_dir, target_dir)` (empty string = argument not passed). -/
  | clone (name github_org release working_dir target_dir : String)
  /-- `parent_dir.mkdir(parents=True, exist_ok=True)` -/
  | mkdirParents (dir : String)
  /-- `subprocess.run(["make"], cwd=deploy_dir)` -/
  | make (dir : String)
  /-- the interactive `input(...)` confirmation prompt -/
  | prompt
  deriving DecidableEq, Repr

/-- Oracles for the outside world: what each external interaction returns. -/
structure Env where
  /-- Exit code of `git clone` for repo `name` in `github_org`, at tag
  `release` (`""` = default branch), run in `working_dir` (`""` = cwd) with
  explicit `target_dir` (`""` = none).  `0` means the clone succeeded. -/
  clone : String → String → String → String → String → Nat
  /-- `Path(deploy_dir).exists()` -/
  pathExists : String → Bool
  /-- Exit code of `make` run in the given directory. -/
  make : String → Nat
  /-- The user's response to the confirmation prompt. -/
  userInput : String
  /-- The scratch directory produced by `TemporaryDirectory()`. -/
  tmpdir : String

/-- `ReturnCode.SUCCESS` -/
def ReturnCode.SUCCESS : Nat := 0
/-- `ReturnCode.EXCEPTION` -/
def ReturnCode.EXCEPTION : Nat := 1
/-- `ReturnCode.NO_CONFIRM` -/
def ReturnCode.NO_CONFIRM : Nat := 2

/-- The `CliArgs` record (the fields `main` consumes; `version` is handled
by the out-of-scope wrapper, `verbose` only affects logging). -/
structure Args where
  name : String
  release : String
  ioc_dir : String
  github_org : String
  auto_confirm : Bool
  dry_run : Bool
  deriving DecidableEq, Repr

/-- `_clone(name, github_org, release, working_dir, target_dir)`: run
`git clone` with `check=True`.  Returns the `CompletedProcess` return code
(necessarily `0`) on success and raises `CalledProcessError` on nonzero
exit; the subprocess invocation is recorded in the trace either way. -/
def git_clone (env : Env) (name github_org : String) (release : String := "")
    (working_dir : String := "") (target_dir : String := "") :
    Except PyErr Nat × List Effect :=
  let code := env.clone name github_org release working_dir target_dir
  if code = 0 then
    (.ok code, [.clone name github_org release working_dir target_dir])
  else
    (.error (.calledProcessError code),
      [.clone name github_org release working_dir target_dir])

/-- The `ValueError` message of `finalize_name`. -/
def nameErrMsg (name github_org : String) : String :=
  s!"Error cloning repo, make sure {name} exists in {github_org} and check your permissions!"

/-- The name-rewriting step at the top of `finalize_name`: split on `-`;
names with fewer than 3 segments or whose first segment is not `"ioc"` are
rewritten to `ioc-common-<name>`, all others are kept as-is. -/
def finalName (name : String) : String :=
  let split_name := pySplitOnDash name
  if split_name.length < 3 || split_name.headD "" ≠ "ioc" then
    "ioc-common-" ++ name
  else name

/-- `finalize_name(name, github_org, verbose)`: rewrite ill-shaped names via
`finalName`, then verify the candidate by a probe clone into the scratch
directory, raising `ValueError` (from `except CalledProcessError`) when the
probe clone fails. -/
def finalize_name (env : Env) (name github_org : String) :
    Except PyErr String × List Effect :=
  match git_clone env (finalName name) github_org "" env.tmpdir "" with
  | (.ok _, tr) => (.ok (finalName name), tr)
  | (.error (.calledProcessError _), tr) =>
      (.error (.valueError (nameErrMsg (finalName name) github_org)), tr)
  | (.error e, tr) => (.error e, tr)

/-- The ordered tag-variant list `try_release` built at the top of
`finalize_tag`; `none` models the `IndexError` that `release[0]` raises on
the empty string (`startswith` checks fail first, so the subscript is only
reached when the string has no `R`/`v` prefix). -/
def tryReleaseList (release : String) : Option (List String) :=
  if pyStartsWith release 'R' then
    some [release, "v" ++ release.drop 1, release.drop 1]
  else if pyStartsWith release 'v' then
    some [release, "R" ++ release.drop 1, release.drop 1]
  else
    match release.data.head? with
    | none => none
    | some c =>
      if c.isAlpha then
        some [release, "R" ++ release.drop 1, "v" ++ release.drop 1,
          release.drop 1]
      else
        some [release, "R" ++ release, "v" ++ release]

/-- The `ValueError` message of `finalize_tag`. -/
def tagErrMsg (release github_org name : String) : String :=
  s!"Unable to find {release} in {github_org}/{name}"

/-- The `for rel in try_release` probe loop of `finalize_tag`: probe each
variant by a clone into the scratch directory (`except CalledProcessError`
moves on to the next variant), return the first success, raise `ValueError`
naming the original release when the list is exhausted. -/
def tagProbeLoop (env : Env) (name github_org release : String) :
    List String → Except PyErr String × List Effect
  | [] => (.error (.valueError (tagErrMsg release github_org name)), [])
  | rel :: rest =>
    match git_clone env name github_org rel env.tmpdir rel with
    | (.ok _, tr) => (.ok rel, tr)
    | (.error _, tr) =>
      let (res, tr2) := tagProbeLoop env name github_org release rest
      (res, tr ++ tr2)

/-- `finalize_tag(name, github_org, release, verbose)`. -/
def finalize_tag (env : Env) (name github_org release : String) :
    Except PyErr String × List Effect :=
  match tryReleaseList release with
  | none => (.error .indexError, [])
  | some try_release => tagProbeLoop env name github_org release try_release

/-- `get_target_dir(name, ioc_dir, release)` =
`str(Path(ioc_dir) / split_name[1] / "-".join(split_name[2:]) / release)`. -/
def get_target_dir (name ioc_dir release : String) : String :=
  let split_name := pySplitOnDash name
  pathJoin (pathJoin (pathJoin ioc_dir (split_name.getD 1 ""))
    (pyJoinDash (split_name.drop 2))) release

/-- `clone_repo_tag(name, github_org, release, deploy_dir, dry_run,
verbose)`: ensure the parent directory exists (log only under dry-run),
then the real clone into `deploy_dir` (skipped with SUCCESS under
dry-run). -/
def clone_repo_tag (env : Env) (name github_org release deploy_dir : String)
    (dry_run : Bool) : Except PyErr Nat × List Effect :=
  if dry_run then (.ok ReturnCode.SUCCESS, [])
  else
    match git_clone env name github_org release "" deploy_dir with
    | (res, tr) => (res, Effect.mkdirParents (parentDir deploy_dir) :: tr)

/-- `make_in(deploy_dir, dry_run)`: `subprocess.run(["make"],
cwd=deploy_dir).returncode` (no `check=True`, so never raises), skipped
with SUCCESS under dry-run. -/
def make_in (env : Env) (deploy_dir : String) (dry_run : Bool) :
    Nat × List Effect :=
  if dry_run then (ReturnCode.SUCCESS, [])
  else (env.make deploy_dir, [.make deploy_dir])

/-- The clone-and-build tail of `main` after the confirmation prompt. -/
def deploy_steps (env : Env) (args : Args) (upd_name upd_rel deploy_dir : String) :
    Except PyErr Nat × List Effect :=
  match clone_repo_tag env upd_name args.github_org upd_rel deploy_dir
      args.dry_run with
  | (.error e, tr3) => (.error e, tr3)
  | (.ok rval, tr3) =>
    if rval ≠ ReturnCode.SUCCESS then (.ok rval, tr3)
    else
      let (rval2, tr4) := make_in env deploy_dir args.dry_run
      if rval2 ≠ ReturnCode.SUCCESS then (.ok rval2, tr3 ++ tr4)
      else (.ok ReturnCode.SUCCESS, tr3 ++ tr4)

/-- The `ValueError` message of `main`'s up-front validation. -/
def usageErrMsg : String :=
  "Must provide both --name and --release. Check ioc-deploy --help for usage."

/-- The `RuntimeError` message of `main`'s existence check. -/
def existsErrMsg (deploy_dir : String) : String :=
  s!"Deploy directory {deploy_dir} already exists! Aborting."

/-- `main(args)`: validation, the three resolution stages, existence check,
confirmation, clone, build. -/
def main (env : Env) (args : Args) : Except PyErr Nat × List Effect :=
  if args.name = "" ∨ args.release = "" then
    (.error (.valueError usageErrMsg), [])
  else
    match finalize_name env args.name args.github_org with
    | (.error e, tr1) => (.error e, tr1)
    | (.ok upd_name, tr1) =>
      match finalize_tag env upd_name args.github_org args.release with
      | (.error e, tr2) => (.error e, tr1 ++ tr2)
      | (.ok upd_rel, tr2) =>
        let deploy_dir := get_target_dir upd_name args.ioc_dir upd_rel
        if env.pathExists deploy_dir then
          (.error (.runtimeError (existsErrMsg deploy_dir)), tr1 ++ tr2)
        else if args.auto_confirm then
          match deploy_steps env args upd_name upd_rel deploy_dir with
          | (res, tr3) => (res, tr1 ++ tr2 ++ tr3)
        else if pyStartsWith (pyLower (pyStrip env.userInput)) 'y' = false then
          (.ok ReturnCode.NO_CONFIRM, tr1 ++ tr2 ++ [.prompt])
        else
          match deploy_steps env args upd_name upd_rel deploy_dir with
          | (res, tr3) => (res, tr1 ++ tr2 ++ [.prompt] ++ tr3)

/-- The error-handling shell `_main`: every exception escaping `main` is
caught, logged, and mapped to exit code `EXCEPTION` (1). -/
def run (env : Env) (args : Args) : Nat × List Effect :=
  match main env args with
  | (.ok n, tr) => (n, tr)
  | (.error _, tr) => (ReturnCode.EXCEPTION, tr)

/-! ## Spec-side definitions (for refinement-style claims) -/

/-- The spec's well-formedness invariant on resolved names: at least three
hyphen-delimited segments, the first literally `"ioc"`. -/
def wellFormedName (s : String) : Bool :=
  3 ≤ (pySplitOnDash s).length && (pySplitOnDash s).headD "" == "ioc"

/-- The spec's path-derivation rule, stated in its own words: split the
resolved name on `-`; the path is
`base_dir / segments[1] / join(segments[2:], "-") / tag`. -/
def derive_path (name base_dir tag : String) : String :=
  let segments := pySplitOnDash name
  pathJoin (pathJoin (pathJoin base_dir (segments.getD 1 ""))
    (pyJoinDash (segments.drop 2))) tag

/-- A probe clone: a `git clone` run inside the scratch directory. -/
def isProbeEffect (env : Env) : Effect → Bool
  | .clone _ _ _ working_dir _ => working_dir == env.tmpdir
  | _ => false

/-! ## Helper lemmas -/

lemma uint32_le_iff (a b : UInt32) : (a ≤ b) ↔ a.toNat ≤ b.toNat := Iff.rfl

lemma isDigit_not_isAlpha {c : Char} (h : c.isDigit = true) :
    c.isAlpha = false := by
  simp only [Char.isDigit, Char.isAlpha, Char.isUpper, Char.isLower,
    uint32_le_iff, Bool.and_eq_true, decide_eq_true_eq, Bool.or_eq_false_iff,
    Bool.and_eq_false_iff, decide_eq_false_iff_not, Nat.not_le,
    show ((48 : UInt32).toNat = 48) from rfl,
    show ((57 : UInt32).toNat = 57) from rfl,
    show ((65 : UInt32).toNat = 65) from rfl,
    show ((90 : UInt32).toNat = 90) from rfl,
    show ((97 : UInt32).toNat = 97) from rfl,
    show ((122 : UInt32).toNat = 122) from rfl] at *
  omega

lemma pySplitChars_ne_nil (sep : Char) (l : List Char) :
    pySplitChars sep l ≠ [] := by
  cases l with
  | nil => simp [pySplitChars]
  | cons c cs =>
    unfold pySplitChars
    split
    · simp
    · split <;> simp

lemma pySplitChars_ioc_common (l : List Char) :
    pySplitChars '-' ("ioc-common-".data ++ l) =
      "ioc".data :: "common".data :: pySplitChars '-' l := by
  have h : "ioc-common-".data = ['i','o','c','-','c','o','m','m','o','n','-'] :=
    rfl
  rw [h]
  simp [pySplitChars]

lemma pySplitOnDash_ioc_common (name : String) :
    pySplitOnDash ("ioc-common-" ++ name) =
      "ioc" :: "common" :: pySplitOnDash name := by
  unfold pySplitOnDash
  rw [String.data_append, pySplitChars_ioc_common]
  simp

lemma data_ne_nil_of_ne_empty {s : String} (h : s ≠ "") : s.data ≠ [] := by
  intro hd
  exact h (String.ext (hd.trans rfl))

lemma tryReleaseList_isSome {release : String} (h : release ≠ "") :
    (tryReleaseList release).isSome = true := by
  unfold tryReleaseList
  split
  · simp
  · split
    · simp
    · cases hd : release.data.head? with
      | none =>
        exact absurd (List.head?_eq_none_iff.mp hd) (data_ne_nil_of_ne_empty h)
      | some c => cases hc : c.isAlpha <;> simp [hc]

/-- Unfolding equation for `git_clone` as a single `if` on the oracle's
exit code. -/
lemma git_clone_eq (env : Env) (n o r wd td : String) :
    git_clone env n o r wd td =
      if env.clone n o r wd td = 0 then
        (.ok (env.clone n o r wd td), [.clone n o r wd td])
      else
        (.error (.calledProcessError (env.clone n o r wd td)),
          [.clone n o r wd td]) := by
  unfold git_clone
  by_cases hc : env.clone n o r wd td = 0 <;> simp [hc]

/-- Unfolding equation for `finalize_name` as a single `if` on the probe
clone's exit code. -/
lemma finalize_name_eq (env : Env) (name github_org : String) :
    finalize_name env name github_org =
      if env.clone (finalName name) github_org "" env.tmpdir "" = 0 then
        (.ok (finalName name),
          [.clone (finalName name) github_org "" env.tmpdir ""])
      else
        (.error (.valueError (nameErrMsg (finalName name) github_org)),
          [.clone (finalName name) github_org "" env.tmpdir ""]) := by
  unfold finalize_name
  rw [git_clone_eq]
  by_cases hc : env.clone (finalName name) github_org "" env.tmpdir "" = 0
  · rw [if_pos hc, if_pos hc]
  · rw [if_neg hc, if_neg hc]

/-- Unfolding equation for one step of the tag probe loop. -/
lemma tagProbeLoop_cons (env : Env) (name github_org release a : String)
    (as : List String) :
    tagProbeLoop env name github_org release (a :: as) =
      if env.clone name github_org a env.tmpdir a = 0 then
        (.ok a, [.clone name github_org a env.tmpdir a])
      else
        ((tagProbeLoop env name github_org release as).1,
          .clone name github_org a env.tmpdir a ::
            (tagProbeLoop env name github_org release as).2) := by
  cases h : tagProbeLoop env name github_org release as with
  | mk res tr2 =>
    by_cases hc : env.clone name github_org a env.tmpdir a = 0
    · rw [if_pos hc, tagProbeLoop.eq_def]
      dsimp only
      rw [git_clone_eq, if_pos hc]
    · rw [if_neg hc, tagProbeLoop.eq_def]
      dsimp only
      rw [git_clone_eq, if_neg hc, h]
      rfl

lemma finalize_name_no_indexError (env : Env) (name github_org : String) :
    (finalize_name env name github_org).1 ≠ .error .indexError := by
  rw [finalize_name_eq]
  split <;> simp

lemma tagProbeLoop_no_indexError (env : Env) (name github_org release : String)
    (lst : List String) :
    (tagProbeLoop env name github_org release lst).1 ≠ .error .indexError := by
  induction lst with
  | nil => simp [tagProbeLoop]
  | cons a as ih =>
    rw [tagProbeLoop_cons]
    split <;> simp [ih]

lemma finalize_tag_no_indexError (env : Env) (name github_org : String)
    {release : String} (h : release ≠ "") :
    (finalize_tag env name github_org release).1 ≠ .error .indexError := by
  unfold finalize_tag
  cases ht : tryReleaseList release with
  | none =>
    have hs := tryReleaseList_isSome h
    rw [ht] at hs
    simp at hs
  | some lst => exact tagProbeLoop_no_indexError env name github_org release lst

/-- Unfolding equation for `clone_repo_tag` in the non-dry-run case. -/
lemma clone_repo_tag_real_eq (env : Env) (n o r d : String) :
    clone_repo_tag env n o r d false =
      if env.clone n o r "" d = 0 then
        (.ok (env.clone n o r "" d),
          [.mkdirParents (parentDir d), .clone n o r "" d])
      else
        (.error (.calledProcessError (env.clone n o r "" d)),
          [.mkdirParents (parentDir d), .clone n o r "" d]) := by
  unfold clone_repo_tag
  rw [git_clone_eq]
  by_cases hc : env.clone n o r "" d = 0
  · rw [if_pos hc, if_pos hc]
    rfl
  · rw [if_neg hc, if_neg hc]
    rfl

lemma clone_repo_tag_error_shape {env : Env} {n o r d : String} {b : Bool}
    {e : PyErr} {tr : List Effect}
    (h : clone_repo_tag env n o r d b = (.error e, tr)) :
    ∃ code, e = .calledProcessError code ∧ code ≠ 0 := by
  cases b with
  | true => simp [clone_repo_tag] at h
  | false =>
    rw [clone_repo_tag_real_eq] at h
    split at h
    · simp at h
    · simp only [Prod.mk.injEq, Except.error.injEq] at h
      exact ⟨_, h.1.symm, by assumption⟩

lemma deploy_steps_no_indexError (env : Env) (args : Args)
    (un ur dd : String) :
    (deploy_steps env args un ur dd).1 ≠ .error .indexError := by
  unfold deploy_steps
  split
  · rename_i e tr3 heq
    obtain ⟨code, hc, -⟩ := clone_repo_tag_error_shape heq
    simp [hc]
  · split
    · simp
    · split
      split <;> simp

/-- Unfolding equation for `main` once both resolution stages have
succeeded. -/
lemma main_eq_resolved {env : Env} {args : Args} {un ur : String}
    {tr1 tr2 : List Effect}
    (hn : args.name ≠ "") (hr : args.release ≠ "")
    (hname : finalize_name env args.name args.github_org = (.ok un, tr1))
    (htag : finalize_tag env un args.github_org args.release = (.ok ur, tr2)) :
    main env args =
      if env.pathExists (get_target_dir un args.ioc_dir ur) then
        (.error (.runtimeError (existsErrMsg
            (get_target_dir un args.ioc_dir ur))), tr1 ++ tr2)
      else if args.auto_confirm then
        ((deploy_steps env args un ur (get_target_dir un args.ioc_dir ur)).1,
          tr1 ++ tr2 ++
            (deploy_steps env args un ur
              (get_target_dir un args.ioc_dir ur)).2)
      else if pyStartsWith (pyLower (pyStrip env.userInput)) 'y' = false then
        (.ok ReturnCode.NO_CONFIRM, tr1 ++ tr2 ++ [.prompt])
      else
        ((deploy_steps env args un ur (get_target_dir un args.ioc_dir ur)).1,
          tr1 ++ tr2 ++ [.prompt] ++
            (deploy_steps env args un ur
              (get_target_dir un args.ioc_dir ur)).2) := by
  unfold main
  rw [if_neg (by simp [hn, hr]), hname]
  dsimp only
  rw [htag]

lemma main_no_indexError (env : Env) (args : Args) :
    (main env args).1 ≠ .error .indexError := by
  unfold main
  split
  · simp
  · rename_i hcond
    have hr : args.release ≠ "" := fun h => hcond (Or.inr h)
    split
    · rename_i e tr1 heq
      have hni := finalize_name_no_indexError env args.name args.github_org
      rw [heq] at hni
      simpa using hni
    · rename_i un tr1 heq
      split
      · rename_i e tr2 heq2
        have hti := finalize_tag_no_indexError env un args.github_org hr
        rw [heq2] at hti
        simpa using hti
      · rename_i ur tr2 heq2
        dsimp only
        split
        · simp
        · split
          · simpa using deploy_steps_no_indexError env args un ur
              (get_target_dir un args.ioc_dir ur)
          · split
            · simp
            · simpa using deploy_steps_no_indexError env args un ur
                (get_target_dir un args.ioc_dir ur)

/-- The dead branch in `main`: a successful (non-raising) return of
`clone_repo_tag` always carries return code 0, because `_clone` runs with
`check=True`.  `main`'s `if rval != ReturnCode.SUCCESS: return rval` after
the clone can therefore never fire. -/
lemma clone_repo_tag_ok_eq_zero {env : Env} {n o r d : String} {b : Bool}
    {code : Nat} {tr : List Effect}
    (h : clone_repo_tag env n o r d b = (.ok code, tr)) : code = 0 := by
  cases b with
  | true =>
    simp only [clone_repo_tag, if_pos, Prod.mk.injEq, Except.ok.injEq] at h
    exact h.1.symm
  | false =>
    rw [clone_repo_tag_real_eq] at h
    split at h
    · simp only [Prod.mk.injEq, Except.ok.injEq] at h
      rename_i hz
      omega
    · simp at h

/-! ## Concrete environments and argument records used as test inputs -/

/-- Arguments of a typical deployment run with auto-confirm. -/
def argsStd : Args :=
  { name := "ioc-foo-bar", release := "R1.0.0", ioc_dir := "/x/ioc",
    github_org := "pcdshub", auto_confirm := true, dry_run := false }

/-- A world in which every clone succeeds, the deploy path is absent, make
succeeds, and the user would answer yes. -/
def envAllOk : Env :=
  { clone := fun _ _ _ _ _ => 0, pathExists := fun _ => false,
    make := fun _ => 0, userInput := "y", tmpdir := "/tmp/probe" }

/-- A world in which the scratch probe clones succeed but the real clone
(the one run without a scratch working directory) exits with code 128. -/
def envCloneFails : Env :=
  { envAllOk with clone := fun _ _ _ wd _ => if wd = "" then 128 else 0 }

/-- C1: the claim says a nonzero exit of the real clone is propagated as the
run's status code.  In the code, `_clone` runs with `check=True`, so the
nonzero exit raises `CalledProcessError` instead; the top-level handler maps
it to `EXCEPTION` (1), not to the clone's exit code.  With the real clone
exiting 128, `main` raises and the run exits 1, not 128 (see also
`clone_repo_tag_ok_eq_zero`: the propagation branch after the clone is
dead code). -/
theorem real_clone_failure_raises_to_exit_1 :
    (main envCloneFails argsStd).1 =
      Except.error (PyErr.calledProcessError 128) ∧
    (run envCloneFails argsStd).1 = ReturnCode.EXCEPTION ∧
    (run envCloneFails argsStd).1 ≠ 128 :=
  ⟨rfl, rfl, by decide⟩

/-- C4: path derivation is a pure function of (resolved name, base
directory, resolved tag) computing exactly the spec's formula
`base_dir / segments[1] / join(segments[2:], "-") / tag`, and on the spec's
example it yields `/x/ioc/common/gigECam/R1.0.0`. -/
theorem get_target_dir_matches_spec :
    (∀ name ioc_dir release,
      get_target_dir name ioc_dir release = derive_path name ioc_dir release) ∧
    get_target_dir "ioc-common-gigECam" "/x/ioc" "R1.0.0" =
      "/x/ioc/common/gigECam/R1.0.0" :=
  ⟨fun _ _ _ => rfl, rfl⟩

/-- C10: for every non-empty release string the variant-list construction
of `finalize_tag` is total (the `release[0]` access is in bounds), and no
run through `main` can ever raise the `IndexError` of the out-of-bounds
branch, because `main` rejects empty names/releases up front. -/
theorem release_index_access_safe :
    (∀ release : String, release ≠ "" →
      (tryReleaseList release).isSome = true) ∧
    (∀ (env : Env) (args : Args),
      (main env args).1 ≠ Except.error PyErr.indexError) :=
  ⟨fun _ h => tryReleaseList_isSome h, main_no_indexError⟩

/-- Witness for `release_index_access_safe` at concrete inputs. -/
theorem release_index_access_safe_witness :
    (tryReleaseList "1.0.0").isSome = true ∧
    (main envAllOk argsStd).1 ≠ Except.error PyErr.indexError :=
  ⟨release_index_access_safe.1 "1.0.0" (by decide),
   release_index_access_safe.2 envAllOk argsStd⟩

/-- The rewrite condition of `finalName` is the negated well-formedness
test. -/
lemma finalName_cond_eq (l : List String) :
    (decide (l.length < 3) || decide (l.headD "" ≠ "ioc")) =
      !(3 ≤ l.length && l.headD "" == "ioc") := by
  have hsb : forall a b : String, decide (a = b) = (a == b) := by
    intro a b
    by_cases h : a = b <;> simp [h]
  have hd : decide (l.headD "" ≠ "ioc") = !(l.headD "" == "ioc") := by
    rw [decide_not, hsb]
  have hl : decide (l.length < 3) = !(decide (3 ≤ l.length)) := by
    by_cases h : l.length < 3
    · simp [h, Nat.not_le.mpr h]
    · simp [h, Nat.not_lt.mp h]
  rw [hd, hl]
  cases h3 : decide (3 ≤ l.length) <;> cases h4 : l.headD "" == "ioc" <;>
    simp

/-- `finalName` in terms of the spec-side well-formedness predicate. -/
lemma finalName_eq (name : String) :
    finalName name =
      if wellFormedName name then name else "ioc-common-" ++ name := by
  unfold finalName wellFormedName
  dsimp only
  rw [finalName_cond_eq]
  cases hc : (3 ≤ (pySplitOnDash name).length &&
      (pySplitOnDash name).headD "" == "ioc") <;> simp [hc]

/-- The name rewrite always produces a well-formed name. -/
lemma finalName_wellFormed (name : String) :
    wellFormedName (finalName name) = true := by
  rw [finalName_eq]
  by_cases h : wellFormedName name = true
  · rw [if_pos h]
    exact h
  · rw [if_neg h]
    unfold wellFormedName
    rw [pySplitOnDash_ioc_common]
    have hne := pySplitChars_ne_nil '-' name.data
    have hlen : 1 <= (pySplitOnDash name).length := by
      unfold pySplitOnDash
      rw [List.length_map]
      exact List.length_pos.mpr hne
    simp only [List.length_cons, List.headD_cons, Bool.and_eq_true,
      decide_eq_true_eq, beq_self_eq_true, and_true]
    omega

/-- C3: a name with at least three hyphen segments led by `ioc` is probed
as-is and returned unchanged on success; any other name is probed exactly
once, as `ioc-common-<name>`, and the resolver raises `ValueError` if that
single probe fails.  In both cases the trace holds exactly one probe
clone. -/
theorem finalize_name_probe_exactly_one_candidate :
    (forall (env : Env) (name github_org : String),
      wellFormedName name = true ->
      finalize_name env name github_org =
        (if env.clone name github_org "" env.tmpdir "" = 0 then .ok name
         else .error (.valueError (nameErrMsg name github_org)),
         [Effect.clone name github_org "" env.tmpdir ""])) /\
    (forall (env : Env) (name github_org : String),
      wellFormedName name = false ->
      finalize_name env name github_org =
        (if env.clone ("ioc-common-" ++ name) github_org "" env.tmpdir "" = 0
         then .ok ("ioc-common-" ++ name)
         else .error
           (.valueError (nameErrMsg ("ioc-common-" ++ name) github_org)),
         [Effect.clone ("ioc-common-" ++ name) github_org "" env.tmpdir ""])) := by
  constructor
  · intro env name github_org h
    rw [finalize_name_eq]
    rw [show finalName name = name from by rw [finalName_eq, if_pos h]]
    by_cases hc : env.clone name github_org "" env.tmpdir "" = 0
    · rw [if_pos hc, if_pos hc]
    · rw [if_neg hc, if_neg hc]
  · intro env name github_org h
    rw [finalize_name_eq]
    rw [show finalName name = "ioc-common-" ++ name from by
      rw [finalName_eq, if_neg (by simp [h])]]
    by_cases hc :
        env.clone ("ioc-common-" ++ name) github_org "" env.tmpdir "" = 0
    · rw [if_pos hc, if_pos hc]
    · rw [if_neg hc, if_neg hc]

/-- Witness for `finalize_name_probe_exactly_one_candidate`: the ill-shaped
name `ads-ioc` is probed exactly once, as `ioc-common-ads-ioc`. -/
theorem finalize_name_probe_exactly_one_candidate_witness :
    wellFormedName "ads-ioc" = false /\
    finalize_name envAllOk "ads-ioc" "pcdshub" =
      (if envAllOk.clone ("ioc-common-" ++ "ads-ioc") "pcdshub" ""
            envAllOk.tmpdir "" = 0
       then .ok ("ioc-common-" ++ "ads-ioc")
       else .error (.valueError
         (nameErrMsg ("ioc-common-" ++ "ads-ioc") "pcdshub")),
       [Effect.clone ("ioc-common-" ++ "ads-ioc") "pcdshub" ""
         envAllOk.tmpdir ""]) :=
  ⟨by decide,
   finalize_name_probe_exactly_one_candidate.2 envAllOk "ads-ioc" "pcdshub"
     (by decide)⟩

/-- C9: every successful return value of `finalize_name` satisfies the
ResolvedName invariant: split on `-` it has at least three segments and the
first is literally `ioc`. -/
theorem finalize_name_result_wellFormed (env : Env)
    (name github_org res : String) (tr : List Effect)
    (h : finalize_name env name github_org = (.ok res, tr)) :
    wellFormedName res = true := by
  rw [finalize_name_eq] at h
  split at h
  · simp only [Prod.mk.injEq, Except.ok.injEq] at h
    rw [← h.1]
    exact finalName_wellFormed name
  · simp at h

/-- Witness for `finalize_name_result_wellFormed`. -/
theorem finalize_name_result_wellFormed_witness :
    wellFormedName "ioc-common-x" = true :=
  finalize_name_result_wellFormed envAllOk "x" "pcdshub" "ioc-common-x"
    [Effect.clone "ioc-common-x" "pcdshub" "" envAllOk.tmpdir ""] (by rfl)

/-- Heads: a string whose head char differs from `c2` does not start with
`c2`. -/
lemma pyStartsWith_eq_false_of_head {s : String} {c c2 : Char}
    (hd : s.data.head? = some c) (hne : c ≠ c2) :
    pyStartsWith s c2 = false := by
  simp [pyStartsWith, hd, hne]

/-- The probe loop stops at the first variant whose probe clone succeeds:
it returns that variant, and the trace is exactly the failed prefix of
probes followed by the successful probe. -/
lemma tagProbeLoop_find_some (env : Env) (name github_org release : String)
    (lst : List String) (rel : String)
    (h : lst.find?
      (fun t => env.clone name github_org t env.tmpdir t == 0) = some rel) :
    tagProbeLoop env name github_org release lst =
      (.ok rel,
       (lst.takeWhile
          (fun t => !(env.clone name github_org t env.tmpdir t == 0))).map
         (fun t => Effect.clone name github_org t env.tmpdir t) ++
       [Effect.clone name github_org rel env.tmpdir rel]) := by
  induction lst with
  | nil => simp at h
  | cons a as ih =>
    rw [tagProbeLoop_cons]
    by_cases hc : env.clone name github_org a env.tmpdir a = 0
    · rw [if_pos hc]
      rw [List.find?_cons_of_pos _ (by simp [hc])] at h
      obtain rfl : a = rel := by simpa using h
      rw [List.takeWhile_cons_of_neg (by simp [hc])]
      simp
    · rw [if_neg hc]
      rw [List.find?_cons_of_neg _ (by simp [hc])] at h
      rw [ih h, List.takeWhile_cons_of_pos (by simp [hc])]
      simp

/-- When every variant's probe clone fails, the probe loop raises the
`ValueError` naming the original release, after probing every variant in
order. -/
lemma tagProbeLoop_find_none (env : Env) (name github_org release : String)
    (lst : List String)
    (h : lst.find?
      (fun t => env.clone name github_org t env.tmpdir t == 0) = none) :
    tagProbeLoop env name github_org release lst =
      (.error (.valueError (tagErrMsg release github_org name)),
       lst.map (fun t => Effect.clone name github_org t env.tmpdir t)) := by
  induction lst with
  | nil => simp [tagProbeLoop]
  | cons a as ih =>
    rw [List.find?_cons] at h
    by_cases hc : env.clone name github_org a env.tmpdir a = 0
    · simp [hc] at h
    · rw [tagProbeLoop_cons, if_neg hc]
      have hcb : (env.clone name github_org a env.tmpdir a == 0) = false := by
        simp [hc]
      rw [hcb] at h
      rw [ih h]
      simp

/-- A world in which only the probe of tag variant `v1.0.0` succeeds. -/
def envTagProbe : Env :=
  { envAllOk with clone := fun _ _ r _ _ => if r = "v1.0.0" then 0 else 1 }

/-- C2: the tag resolver builds exactly the spec's ordered variant list for
each shape of release string (leading `R`, leading `v`, other letter,
digit), including the two concrete examples; the variants are probed in
order, the first success is returned immediately with no later variant
probed, and exhaustion raises a `ValueError` naming the original release
and the resolved repository. -/
theorem finalize_tag_variants_and_probe_order :
    (∀ release : String, pyStartsWith release 'R' = true →
      tryReleaseList release =
        some [release, "v" ++ release.drop 1, release.drop 1]) ∧
    (∀ release : String, pyStartsWith release 'v' = true →
      tryReleaseList release =
        some [release, "R" ++ release.drop 1, release.drop 1]) ∧
    (∀ (release : String) (c : Char), release.data.head? = some c →
      c.isAlpha = true → c ≠ 'R' → c ≠ 'v' →
      tryReleaseList release =
        some [release, "R" ++ release.drop 1, "v" ++ release.drop 1,
          release.drop 1]) ∧
    (∀ (release : String) (c : Char), release.data.head? = some c →
      c.isDigit = true →
      tryReleaseList release =
        some [release, "R" ++ release, "v" ++ release]) ∧
    tryReleaseList "R1.0.0" = some ["R1.0.0", "v1.0.0", "1.0.0"] ∧
    tryReleaseList "1.0.0" = some ["1.0.0", "R1.0.0", "v1.0.0"] ∧
    (∀ (env : Env) (name github_org release rel : String)
        (try_release : List String),
      tryReleaseList release = some try_release →
      try_release.find?
        (fun t => env.clone name github_org t env.tmpdir t == 0) = some rel →
      finalize_tag env name github_org release =
        (.ok rel,
         (try_release.takeWhile
            (fun t => !(env.clone name github_org t env.tmpdir t == 0))).map
           (fun t => Effect.clone name github_org t env.tmpdir t) ++
         [Effect.clone name github_org rel env.tmpdir rel])) ∧
    (∀ (env : Env) (name github_org release : String)
        (try_release : List String),
      tryReleaseList release = some try_release →
      try_release.find?
        (fun t => env.clone name github_org t env.tmpdir t == 0) = none →
      finalize_tag env name github_org release =
        (.error (.valueError (tagErrMsg release github_org name)),
         try_release.map
           (fun t => Effect.clone name github_org t env.tmpdir t))) := by
  refine ⟨?_, ?_, ?_, ?_, rfl, rfl, ?_, ?_⟩
  · intro r h
    simp [tryReleaseList, h]
  · intro r h
    have hd : r.data.head? = some 'v' := by
      simpa [pyStartsWith] using h
    unfold tryReleaseList
    rw [pyStartsWith_eq_false_of_head hd (by decide)]
    simp [h]
  · intro r c hd ha hcR hcv
    unfold tryReleaseList
    rw [pyStartsWith_eq_false_of_head hd hcR,
      pyStartsWith_eq_false_of_head hd hcv]
    simp [hd, ha]
  · intro r c hd hdig
    have hcR : c ≠ 'R' := by
      rintro rfl
      exact absurd hdig (by decide)
    have hcv : c ≠ 'v' := by
      rintro rfl
      exact absurd hdig (by decide)
    unfold tryReleaseList
    rw [pyStartsWith_eq_false_of_head hd hcR,
      pyStartsWith_eq_false_of_head hd hcv]
    simp [hd, isDigit_not_isAlpha hdig]
  · intro env name github_org release rel try_release hL hfind
    unfold finalize_tag
    rw [hL]
    exact tagProbeLoop_find_some env name github_org release try_release rel
      hfind
  · intro env name github_org release try_release hL hfind
    unfold finalize_tag
    rw [hL]
    exact tagProbeLoop_find_none env name github_org release try_release hfind

/-- Witness for `finalize_tag_variants_and_probe_order`: the `R`-leading
variant list at `"Rx"`, and a full probe run for release `"1.0.0"` in which
only the third variant `v1.0.0` exists. -/
theorem finalize_tag_variants_and_probe_order_witness :
    tryReleaseList "Rx" = some ["Rx", "v" ++ "Rx".drop 1, "Rx".drop 1] ∧
    finalize_tag envTagProbe "ioc-foo-bar" "pcdshub" "1.0.0" =
      (.ok "v1.0.0",
       (["1.0.0", "R1.0.0", "v1.0.0"].takeWhile
          (fun t => !(envTagProbe.clone "ioc-foo-bar" "pcdshub" t
            envTagProbe.tmpdir t == 0))).map
         (fun t => Effect.clone "ioc-foo-bar" "pcdshub" t
            envTagProbe.tmpdir t) ++
       [Effect.clone "ioc-foo-bar" "pcdshub" "v1.0.0" envTagProbe.tmpdir
          "v1.0.0"]) :=
  ⟨finalize_tag_variants_and_probe_order.1 "Rx" (by decide),
   finalize_tag_variants_and_probe_order.2.2.2.2.2.2.1 envTagProbe
     "ioc-foo-bar" "pcdshub" "1.0.0" "v1.0.0" ["1.0.0", "R1.0.0", "v1.0.0"]
     (by rfl) (by rfl)⟩

/-! ## Trace lemmas: the resolution stages perform only probe clones -/

lemma finalize_name_trace_probe (env : Env) (name github_org : String) :
    ∀ e ∈ (finalize_name env name github_org).2,
      isProbeEffect env e = true := by
  rw [finalize_name_eq]
  split <;> simp [isProbeEffect]

lemma tagProbeLoop_trace_probe (env : Env) (name github_org release : String)
    (lst : List String) :
    ∀ e ∈ (tagProbeLoop env name github_org release lst).2,
      isProbeEffect env e = true := by
  induction lst with
  | nil => simp [tagProbeLoop]
  | cons a as ih =>
    rw [tagProbeLoop_cons]
    by_cases hc : env.clone name github_org a env.tmpdir a = 0
    · rw [if_pos hc]
      intro e he
      simp only [List.mem_singleton] at he
      subst he
      simp [isProbeEffect]
    · rw [if_neg hc]
      intro e he
      simp only [List.mem_cons] at he
      rcases he with he | he
      · subst he
        simp [isProbeEffect]
      · exact ih e he

lemma finalize_tag_trace_probe (env : Env) (name github_org release : String) :
    ∀ e ∈ (finalize_tag env name github_org release).2,
      isProbeEffect env e = true := by
  unfold finalize_tag
  cases ht : tryReleaseList release with
  | none => simp
  | some lst => exact tagProbeLoop_trace_probe env name github_org release lst

/-- An all-probes-or-prompt trace contains no mkdir, no build, and no clone
run outside the scratch directory (unless the scratch directory is the
degenerate empty string). -/
lemma probe_trace_consequences {env : Env} {tr : List Effect}
    (h : ∀ e ∈ tr, isProbeEffect env e = true ∨ e = Effect.prompt) :
    (∀ d, Effect.mkdirParents d ∉ tr) ∧
    (∀ d, Effect.make d ∉ tr) ∧
    (∀ n o r t, Effect.clone n o r "" t ∈ tr → env.tmpdir = "") := by
  refine ⟨?_, ?_, ?_⟩
  · intro d hm
    rcases h _ hm with hp | hp <;> simp [isProbeEffect] at hp
  · intro d hm
    rcases h _ hm with hp | hp <;> simp [isProbeEffect] at hp
  · intro n o r t hm
    rcases h _ hm with hp | hp
    · simp only [isProbeEffect, beq_iff_eq] at hp
      exact hp.symm
    · simp at hp

/-- C5: when the derived deployment path already exists, `main` raises
`RuntimeError` (mapped to exit code 1 by the shell) before the confirmation
prompt and before any mkdir, real clone, or build: the whole trace is the
resolution stages' probe clones. -/
theorem existing_path_fails_before_deploy_effects
    (env : Env) (args : Args) (un ur : String) (tr1 tr2 : List Effect)
    (hn : args.name ≠ "") (hr : args.release ≠ "")
    (hname : finalize_name env args.name args.github_org = (.ok un, tr1))
    (htag : finalize_tag env un args.github_org args.release = (.ok ur, tr2))
    (hex : env.pathExists (get_target_dir un args.ioc_dir ur) = true) :
    main env args =
      (.error (.runtimeError
        (existsErrMsg (get_target_dir un args.ioc_dir ur))), tr1 ++ tr2) ∧
    (run env args).1 = ReturnCode.EXCEPTION ∧
    (∀ e ∈ (main env args).2, isProbeEffect env e = true) ∧
    Effect.prompt ∉ (main env args).2 ∧
    (∀ d, Effect.mkdirParents d ∉ (main env args).2) ∧
    (∀ d, Effect.make d ∉ (main env args).2) ∧
    (∀ n o r t,
      Effect.clone n o r "" t ∈ (main env args).2 → env.tmpdir = "") := by
  have hmain : main env args =
      (.error (.runtimeError
        (existsErrMsg (get_target_dir un args.ioc_dir ur))), tr1 ++ tr2) := by
    rw [main_eq_resolved hn hr hname htag, if_pos hex]
  have h1 : ∀ e ∈ tr1, isProbeEffect env e = true := by
    have hp := finalize_name_trace_probe env args.name args.github_org
    rw [hname] at hp
    exact hp
  have h2 : ∀ e ∈ tr2, isProbeEffect env e = true := by
    have hp := finalize_tag_trace_probe env un args.github_org args.release
    rw [htag] at hp
    exact hp
  have hall : ∀ e ∈ (main env args).2, isProbeEffect env e = true := by
    rw [hmain]
    intro e he
    rcases List.mem_append.mp he with he | he
    · exact h1 e he
    · exact h2 e he
  have hcons := probe_trace_consequences (fun e he => Or.inl (hall e he))
  refine ⟨hmain, ?_, hall, ?_, hcons.1, hcons.2.1, hcons.2.2⟩
  · unfold run
    rw [hmain]
  · intro hm
    have := hall _ hm
    simp [isProbeEffect] at this

/-- A world identical to `envAllOk` except the deploy path already exists. -/
def envPathExists : Env := { envAllOk with pathExists := fun _ => true }

/-- Witness for `existing_path_fails_before_deploy_effects`. -/
theorem existing_path_fails_before_deploy_effects_witness :
    main envPathExists argsStd =
      (.error (.runtimeError (existsErrMsg
        (get_target_dir "ioc-foo-bar" argsStd.ioc_dir "R1.0.0"))),
       [Effect.clone "ioc-foo-bar" "pcdshub" "" "/tmp/probe" ""] ++
       [Effect.clone "ioc-foo-bar" "pcdshub" "R1.0.0" "/tmp/probe"
         "R1.0.0"]) :=
  (existing_path_fails_before_deploy_effects envPathExists argsStd
    "ioc-foo-bar" "R1.0.0" _ _ (by decide) (by decide) (by rfl) (by rfl)
    (by rfl)).1

/-- C6: when auto-confirm is off and the (stripped, lowercased) response
does not start with `y`, `main` returns `NO_CONFIRM` (2) as an ordinary
value, not a raised error, and the trace holds only the resolution probes
plus the prompt: no mkdir, no real clone, no build. -/
theorem declined_confirmation_returns_no_confirm
    (env : Env) (args : Args) (un ur : String) (tr1 tr2 : List Effect)
    (hn : args.name ≠ "") (hr : args.release ≠ "")
    (hname : finalize_name env args.name args.github_org = (.ok un, tr1))
    (htag : finalize_tag env un args.github_org args.release = (.ok ur, tr2))
    (hex : env.pathExists (get_target_dir un args.ioc_dir ur) = false)
    (hac : args.auto_confirm = false)
    (hy : pyStartsWith (pyLower (pyStrip env.userInput)) 'y' = false) :
    main env args = (.ok ReturnCode.NO_CONFIRM, tr1 ++ tr2 ++ [.prompt]) ∧
    (run env args).1 = ReturnCode.NO_CONFIRM ∧
    (∀ e ∈ (main env args).2,
      isProbeEffect env e = true ∨ e = Effect.prompt) ∧
    (∀ d, Effect.mkdirParents d ∉ (main env args).2) ∧
    (∀ d, Effect.make d ∉ (main env args).2) ∧
    (∀ n o r t,
      Effect.clone n o r "" t ∈ (main env args).2 → env.tmpdir = "") := by
  have hmain : main env args =
      (.ok ReturnCode.NO_CONFIRM, tr1 ++ tr2 ++ [.prompt]) := by
    rw [main_eq_resolved hn hr hname htag, if_neg (by simp [hex]),
      if_neg (by simp [hac]), if_pos hy]
  have h1 : ∀ e ∈ tr1, isProbeEffect env e = true := by
    have hp := finalize_name_trace_probe env args.name args.github_org
    rw [hname] at hp
    exact hp
  have h2 : ∀ e ∈ tr2, isProbeEffect env e = true := by
    have hp := finalize_tag_trace_probe env un args.github_org args.release
    rw [htag] at hp
    exact hp
  have hall : ∀ e ∈ (main env args).2,
      isProbeEffect env e = true ∨ e = Effect.prompt := by
    rw [hmain]
    intro e he
    rcases List.mem_append.mp he with he | he
    · rcases List.mem_append.mp he with he | he
      · exact Or.inl (h1 e he)
      · exact Or.inl (h2 e he)
    · simp only [List.mem_singleton] at he
      exact Or.inr he
  have hcons := probe_trace_consequences hall
  refine ⟨hmain, ?_, hall, hcons.1, hcons.2.1, hcons.2.2⟩
  unfold run
  rw [hmain]

/-- A world in which the user declines the confirmation prompt. -/
def envDecline : Env := { envAllOk with userInput := "n" }

/-- Arguments like `argsStd` but without auto-confirm. -/
def argsAsk : Args := { argsStd with auto_confirm := false }

/-- Witness for `declined_confirmation_returns_no_confirm`. -/
theorem declined_confirmation_returns_no_confirm_witness :
    main envDecline argsAsk =
      (.ok ReturnCode.NO_CONFIRM,
       [Effect.clone "ioc-foo-bar" "pcdshub" "" "/tmp/probe" ""] ++
       [Effect.clone "ioc-foo-bar" "pcdshub" "R1.0.0" "/tmp/probe"
         "R1.0.0"] ++ [.prompt]) :=
  (declined_confirmation_returns_no_confirm envDecline argsAsk
    "ioc-foo-bar" "R1.0.0" _ _ (by decide) (by decide) (by rfl) (by rfl)
    (by rfl) (by rfl) (by rfl)).1

/-- Under dry-run the deploy stage is a no-op returning SUCCESS. -/
lemma deploy_steps_dry (env : Env) (args : Args) (un ur dd : String)
    (h : args.dry_run = true) :
    deploy_steps env args un ur dd = (.ok ReturnCode.SUCCESS, []) := by
  unfold deploy_steps clone_repo_tag make_in
  rw [h]
  simp [ReturnCode.SUCCESS]

/-- In a real run whose real clone succeeds, the deploy stage performs
mkdir, the real clone, and the build, and returns the build's exit code. -/
lemma deploy_steps_real (env : Env) (args : Args) (un ur dd : String)
    (hdry : args.dry_run = false)
    (hclone : env.clone un args.github_org ur "" dd = 0) :
    deploy_steps env args un ur dd =
      (.ok (env.make dd),
       [.mkdirParents (parentDir dd), .clone un args.github_org ur "" dd,
        .make dd]) := by
  unfold deploy_steps
  rw [hdry, clone_repo_tag_real_eq, if_pos hclone, hclone]
  unfold make_in
  by_cases hm : env.make dd = ReturnCode.SUCCESS
  · simp [ReturnCode.SUCCESS, hm]
  · simp [ReturnCode.SUCCESS, hm]
    intro h
    exact absurd h hm

lemma run_fst_of_main_ok {env : Env} {args : Args} {m : Nat}
    (h : (main env args).1 = .ok m) : (run env args).1 = m := by
  unfold run
  cases hM : main env args with
  | mk res tr =>
    rw [hM] at h
    cases res with
    | ok n =>
      simp only [Except.ok.injEq] at h
      simp [h]
    | error e => simp at h

/-- C7: under dry-run with the path absent and confirmation granted (or
auto-confirmed), `main` returns SUCCESS; the trace holds only the
resolution probe clones (plus the prompt when not auto-confirmed): no
mkdir, no real clone, no build invocation. -/
theorem dry_run_no_deploy_effects
    (env : Env) (args : Args) (un ur : String) (tr1 tr2 : List Effect)
    (hn : args.name ≠ "") (hr : args.release ≠ "")
    (hname : finalize_name env args.name args.github_org = (.ok un, tr1))
    (htag : finalize_tag env un args.github_org args.release = (.ok ur, tr2))
    (hdry : args.dry_run = true)
    (hex : env.pathExists (get_target_dir un args.ioc_dir ur) = false)
    (hconf : args.auto_confirm = true ∨
      pyStartsWith (pyLower (pyStrip env.userInput)) 'y' = true) :
    main env args = (.ok ReturnCode.SUCCESS,
      tr1 ++ tr2 ++ (if args.auto_confirm then [] else [.prompt])) ∧
    (run env args).1 = ReturnCode.SUCCESS ∧
    (∀ e ∈ (main env args).2,
      isProbeEffect env e = true ∨ e = Effect.prompt) ∧
    (∀ d, Effect.mkdirParents d ∉ (main env args).2) ∧
    (∀ d, Effect.make d ∉ (main env args).2) ∧
    (∀ n o r t,
      Effect.clone n o r "" t ∈ (main env args).2 → env.tmpdir = "") := by
  have hmain : main env args = (.ok ReturnCode.SUCCESS,
      tr1 ++ tr2 ++ (if args.auto_confirm then [] else [.prompt])) := by
    rw [main_eq_resolved hn hr hname htag, if_neg (by simp [hex])]
    by_cases hac : args.auto_confirm = true
    · rw [if_pos hac, deploy_steps_dry env args un ur _ hdry, if_pos hac]
    · have hy := hconf.resolve_left hac
      rw [if_neg hac, if_neg (by simp [hy]),
        deploy_steps_dry env args un ur _ hdry, if_neg hac]
      simp
  have h1 : ∀ e ∈ tr1, isProbeEffect env e = true := by
    have hp := finalize_name_trace_probe env args.name args.github_org
    rw [hname] at hp
    exact hp
  have h2 : ∀ e ∈ tr2, isProbeEffect env e = true := by
    have hp := finalize_tag_trace_probe env un args.github_org args.release
    rw [htag] at hp
    exact hp
  have hall : ∀ e ∈ (main env args).2,
      isProbeEffect env e = true ∨ e = Effect.prompt := by
    rw [hmain]
    intro e he
    rcases List.mem_append.mp he with he | he
    · rcases List.mem_append.mp he with he | he
      · exact Or.inl (h1 e he)
      · exact Or.inl (h2 e he)
    · by_cases hac : args.auto_confirm = true
      · rw [if_pos hac] at he
        simp at he
      · rw [if_neg hac] at he
        simp only [List.mem_singleton] at he
        exact Or.inr he
  have hcons := probe_trace_consequences hall
  refine ⟨hmain, ?_, hall, hcons.1, hcons.2.1, hcons.2.2⟩
  exact run_fst_of_main_ok (by rw [hmain])

/-- Arguments like `argsStd` but in dry-run mode. -/
def argsDry : Args := { argsStd with dry_run := true }

/-- Witness for `dry_run_no_deploy_effects`. -/
theorem dry_run_no_deploy_effects_witness :
    main envAllOk argsDry = (.ok ReturnCode.SUCCESS,
      [Effect.clone "ioc-foo-bar" "pcdshub" "" "/tmp/probe" ""] ++
      [Effect.clone "ioc-foo-bar" "pcdshub" "R1.0.0" "/tmp/probe"
        "R1.0.0"] ++
      (if argsDry.auto_confirm then [] else [.prompt])) :=
  (dry_run_no_deploy_effects envAllOk argsDry "ioc-foo-bar" "R1.0.0" _ _
    (by decide) (by decide) (by rfl) (by rfl) (by rfl) (by rfl)
    (Or.inl (by rfl))).1

/-- C8: when the real clone succeeds and the build tool exits with code
`m`, `main` returns `m` as its status code (an ordinary `.ok` value, never
a raised error): nonzero build exits (e.g. 3) propagate, and a zero exit
yields SUCCESS. -/
theorem build_exit_code_propagated
    (env : Env) (args : Args) (un ur : String) (tr1 tr2 : List Effect)
    (m : Nat)
    (hn : args.name ≠ "") (hr : args.release ≠ "")
    (hname : finalize_name env args.name args.github_org = (.ok un, tr1))
    (htag : finalize_tag env un args.github_org args.release = (.ok ur, tr2))
    (hdry : args.dry_run = false)
    (hex : env.pathExists (get_target_dir un args.ioc_dir ur) = false)
    (hconf : args.auto_confirm = true ∨
      pyStartsWith (pyLower (pyStrip env.userInput)) 'y' = true)
    (hclone : env.clone un args.github_org ur ""
      (get_target_dir un args.ioc_dir ur) = 0)
    (hm : env.make (get_target_dir un args.ioc_dir ur) = m) :
    (main env args).1 = .ok m ∧ (run env args).1 = m := by
  have hds := deploy_steps_real env args un ur
    (get_target_dir un args.ioc_dir ur) hdry hclone
  have hmain1 : (main env args).1 = .ok m := by
    rw [main_eq_resolved hn hr hname htag, if_neg (by simp [hex])]
    by_cases hac : args.auto_confirm = true
    · rw [if_pos hac]
      simp [hds, hm]
    · have hy := hconf.resolve_left hac
      rw [if_neg hac, if_neg (by simp [hy])]
      simp [hds, hm]
  exact ⟨hmain1, run_fst_of_main_ok hmain1⟩

/-- A world in which the build tool exits with code 3. -/
def envMake3 : Env := { envAllOk with make := fun _ => 3 }

/-- Witness for `build_exit_code_propagated`: a build exit of 3 becomes the
run's status code 3. -/
theorem build_exit_code_propagated_witness :
    (main envMake3 argsStd).1 = .ok 3 ∧ (run envMake3 argsStd).1 = 3 :=
  build_exit_code_propagated envMake3 argsStd "ioc-foo-bar" "R1.0.0" _ _ 3
    (by decide) (by decide) (by rfl) (by rfl) (by rfl) (by rfl)
    (Or.inl (by rfl)) (by rfl) (by rfl)

end IocDeploy
